import Mathlib

/-!
Shallow embedding of the document/barcode lifecycle and export engine of the
mobile inventory application (src/main.py).

The relational SQLite state is modelled as a `Store` record holding the three
tables (`users`, `documents`, `barcodes`) as lists of rows in insertion
(rowid) order, the autoincrement counters, and the flat artifact directory
(`static/documents`) as an association list from filename to CSV row data.

Timestamps (`datetime.now().isoformat()`) are modelled as naturals supplied
explicitly by the caller of each operation; ISO-8601 strings of a fixed format
compare chronologically, so `ORDER BY created_at` is `Nat` order.  The two
renderings of a timestamp used by the code (the ISO string stored in rows and
the `%Y%m%d_%H%M%S` strftime form used in filenames) are kept as two separate
rendering functions.

Document types are the three Cyrillic values admitted by the dispatch table of
`create_new_document` ('Инвентаризация'/'Приход'/'Расход', which the spec
names Inventory/Receipt/Expense); an out-of-set type is rejected with HTTP 400
before any state is touched, so the core operations below take the already
validated `DocType`.
-/

namespace MobileInv

inductive Status where
  | active
  | closed
  deriving DecidableEq, Repr

inductive DocType where
  | inventory
  | receipt
  | expense
  deriving DecidableEq, Repr

/-- The stored Cyrillic value of a document type (`doc_type_map` in
`create_new_document`). -/
def DocType.render : DocType → String
  | .inventory => "Инвентаризация"
  | .receipt => "Приход"
  | .expense => "Расход"

/-- Python's `str.strip()`: remove leading and trailing whitespace. -/
def pyStrip (s : String) : String :=
  ⟨((s.data.dropWhile Char.isWhitespace).reverse.dropWhile Char.isWhitespace).reverse⟩

/-- A row of the `users` table. -/
structure UserRow where
  id : Nat
  name : String
  created_at : Nat
  deriving DecidableEq, Repr

/-- A row of the `documents` table. -/
structure Doc where
  id : Nat
  user_id : Nat
  doc_type : DocType
  status : Status
  created_at : Nat
  closed_at : Option Nat
  comment : String
  deriving DecidableEq, Repr

/-- A row of the `barcodes` table. -/
structure Scan where
  id : Nat
  document_id : Nat
  barcode : String
  created_at : Nat
  deriving DecidableEq, Repr

/-- CSV content: a list of rows, each a list of cells, exactly as handed to
`csv.writer.writerow`. -/
abbrev Csv := List (List String)

/-- The whole persistent state: the three tables in rowid order, the
autoincrement counters, and the artifact directory keyed by filename. -/
structure Store where
  users : List UserRow
  docs : List Doc
  scans : List Scan
  files : List (String × Csv)
  nextUserId : Nat
  nextDocId : Nat
  nextScanId : Nat
  deriving DecidableEq, Repr

/-- The freshly initialised database (`init_db` on an absent file, no
credential file): empty tables, `AUTOINCREMENT` counters at 1. -/
def Store.empty : Store := ⟨[], [], [], [], 1, 1, 1⟩

/-- `SELECT * FROM users WHERE id = ?`. -/
def findUser (s : Store) (uid : Nat) : Option UserRow :=
  s.users.find? (fun u => u.id == uid)

/-- `SELECT * FROM documents WHERE id = ?`. -/
def findDoc (s : Store) (docId : Nat) : Option Doc :=
  s.docs.find? (fun d => d.id == docId)

/-- The scans of one document (`SELECT * FROM barcodes WHERE document_id = ?`,
row order). -/
def docScans (s : Store) (docId : Nat) : List Scan :=
  s.scans.filter (fun b => b.document_id == docId)

/-- The rows matched by `WHERE user_id = ? AND status = 'active'`. -/
def activeDocsOf (s : Store) (uid : Nat) : List Doc :=
  s.docs.filter (fun d => d.user_id == uid && d.status == Status.active)

/-- `ORDER BY created_at DESC` on document rows. -/
def createdDesc (a b : Doc) : Prop := b.created_at ≤ a.created_at

instance : DecidableRel createdDesc := fun a b => inferInstanceAs (Decidable (_ ≤ _))

/-- `get_active_document`: the user's active documents ordered by
`created_at DESC`, `LIMIT 1`. -/
def get_active_document (s : Store) (uid : Nat) : Option Doc :=
  (List.insertionSort createdDesc (activeDocsOf s uid)).head?

/-- `create_document`: INSERT a fresh active document, returning its rowid. -/
def create_document (s : Store) (uid : Nat) (dt : DocType) (comment : String) (now : Nat) :
    Store × Nat :=
  ({ s with docs := s.docs ++ [⟨s.nextDocId, uid, dt, Status.active, now, none, comment⟩],
            nextDocId := s.nextDocId + 1 }, s.nextDocId)

/-- The per-row update of `UPDATE documents SET status = 'closed',
closed_at = ? WHERE id = ?`. -/
def closeUpd (docId now : Nat) (d : Doc) : Doc :=
  if d.id == docId then { d with status := Status.closed, closed_at := some now } else d

/-- `close_document`: `UPDATE documents SET status = 'closed', closed_at = ?
WHERE id = ?`. -/
def close_document (s : Store) (docId : Nat) (now : Nat) : Store :=
  { s with docs := s.docs.map (closeUpd docId now) }

/-- `add_barcode`: INSERT one scan row. -/
def add_barcode (s : Store) (docId : Nat) (code : String) (now : Nat) : Store :=
  { s with scans := s.scans ++ [⟨s.nextScanId, docId, code, now⟩],
           nextScanId := s.nextScanId + 1 }

/-- `delete_barcode`: `DELETE FROM barcodes WHERE id = ?` (a silent no-op when
the id is absent). -/
def delete_barcode (s : Store) (scanId : Nat) : Store :=
  { s with scans := s.scans.filter (fun b => b.id != scanId) }

/-- The ISO string stored in `created_at` columns and written into the Date
cell of the export. -/
def fmtIso (t : Nat) : String := toString t

/-- The `%Y%m%d_%H%M%S` strftime rendering used inside export filenames. -/
def fmtFileTime (t : Nat) : String := toString t

/-- The export artifact filename
`{doc_type}_{user_name}_{created_at:%Y%m%d_%H%M%S}.csv`. -/
def csvFilename (dt : DocType) (owner : String) (createdAt : Nat) : String :=
  dt.render ++ "_" ++ owner ++ "_" ++ fmtFileTime createdAt ++ ".csv"

/-- The header row written by `generate_csv` (the code's literal Cyrillic
labels for Owner / Date / DocumentType / Comment / Barcode). -/
def csvHeader : List String :=
  ["Пользователь", "Дата", "Тип документа", "Комментарий", "Штрихкод"]

/-- One data row of the export: owner name, document date, type, comment, and
one scan's barcode. -/
def csvRow (owner : String) (d : Doc) (code : String) : List String :=
  [owner, fmtIso d.created_at, d.doc_type.render, d.comment, code]

/-- `ORDER BY created_at` (ascending) on scan rows. -/
def createdAsc (a b : Scan) : Prop := a.created_at ≤ b.created_at

instance : DecidableRel createdAsc := fun a b => inferInstanceAs (Decidable (_ ≤ _))

/-- `SELECT barcode, created_at FROM barcodes WHERE document_id = ? ORDER BY
created_at` (ascending). -/
def scansByTimeAsc (s : Store) (docId : Nat) : List Scan :=
  List.insertionSort createdAsc (docScans s docId)

/-- Writing a file into the flat artifact directory, silently overwriting any
previous file of the same name. -/
def putFile (fs : List (String × Csv)) (name : String) (content : Csv) :
    List (String × Csv) :=
  fs.filter (fun p => p.1 != name) ++ [(name, content)]

/-- `os.remove` guarded by `os.path.exists`: drop the file when present. -/
def removeFile (fs : List (String × Csv)) (name : String) : List (String × Csv) :=
  fs.filter (fun p => p.1 != name)

/-- Reading a file back from the artifact directory. -/
def lookupFile (fs : List (String × Csv)) (name : String) : Option Csv :=
  (fs.find? (fun p => p.1 == name)).map Prod.snd

/-- The failure kinds surfaced by the core (the spec's error taxonomy for the
HTTP 400/403/404 responses raised by the handlers). -/
inductive Err where
  | invalidInput
  | notFound
  | noActiveDocument
  | emptyDocument
  | forbidden
  deriving DecidableEq, Repr

/-- `generate_csv`: look the document up joined with its owner (404 when the
join is empty), then write the export file and return its name.  The store is
returned alongside the outcome because the write happens before the return. -/
def generate_csv (s : Store) (docId : Nat) : Store × Except Err String :=
  match findDoc s docId with
  | none => (s, Except.error Err.notFound)
  | some d =>
    match findUser s d.user_id with
    | none => (s, Except.error Err.notFound)
    | some u =>
      let filename := csvFilename d.doc_type u.name d.created_at
      let rows : Csv := csvHeader :: (scansByTimeAsc s docId).map (fun b => csvRow u.name d b.barcode)
      ({ s with files := putFile s.files filename rows }, Except.ok filename)

/-- `delete_document`: look the document up by id and owner joined with the
owner row; on a miss return `False` and change nothing; otherwise remove the
export artifact when the document is closed, its scans, and the row itself. -/
def delete_document (s : Store) (docId : Nat) (uid : Nat) : Store × Bool :=
  match s.docs.find? (fun d => d.id == docId && d.user_id == uid) with
  | none => (s, false)
  | some d =>
    match findUser s d.user_id with
    | none => (s, false)
    | some u =>
      ({ s with
          files := if d.status == Status.closed
            then removeFile s.files (csvFilename d.doc_type u.name d.created_at)
            else s.files,
          scans := s.scans.filter (fun b => b.document_id != docId),
          docs := s.docs.filter (fun e => e.id != docId) }, true)

/-- `admin_delete_document`: the same cascade without the ownership
condition in the WHERE clause. -/
def admin_delete_document (s : Store) (docId : Nat) : Store × Bool :=
  match s.docs.find? (fun d => d.id == docId) with
  | none => (s, false)
  | some d =>
    match findUser s d.user_id with
    | none => (s, false)
    | some u =>
      ({ s with
          files := if d.status == Status.closed
            then removeFile s.files (csvFilename d.doc_type u.name d.created_at)
            else s.files,
          scans := s.scans.filter (fun b => b.document_id != docId),
          docs := s.docs.filter (fun e => e.id != docId) }, true)

/-- `update_document_comment`: `UPDATE ... WHERE id = ? AND user_id = ?`,
success is `rowcount > 0`. -/
def update_document_comment (s : Store) (docId : Nat) (uid : Nat) (comment : String) :
    Store × Bool :=
  ({ s with docs := s.docs.map (fun d =>
      if d.id == docId && d.user_id == uid then { d with comment := comment } else d) },
   s.docs.any (fun d => d.id == docId && d.user_id == uid))

/-- `admin_update_document_comment`: `UPDATE ... WHERE id = ?`. -/
def admin_update_document_comment (s : Store) (docId : Nat) (comment : String) :
    Store × Bool :=
  ({ s with docs := s.docs.map (fun d =>
      if d.id == docId then { d with comment := comment } else d) },
   s.docs.any (fun d => d.id == docId))

/-- The `create_new_document` handler after doc-type validation: the
check-active / delete-or-close / create sequence.  `tClose` is the timestamp
taken when closing the stale document, `tNew` the one for the fresh row.  A
failure of `generate_csv` aborts the handler before `create_document` runs. -/
def create_new_document (s : Store) (uid : Nat) (dt : DocType) (comment : String)
    (tClose tNew : Nat) : Store :=
  match get_active_document s uid with
  | none => (create_document s uid dt (pyStrip comment) tNew).1
  | some a =>
    if a.doc_type == dt then s
    else if (docScans s a.id).isEmpty then
      (create_document (delete_document s a.id uid).1 uid dt (pyStrip comment) tNew).1
    else
      match generate_csv (close_document s a.id tClose) a.id with
      | (s2, Except.error _) => s2
      | (s2, Except.ok _) => (create_document s2 uid dt (pyStrip comment) tNew).1

/-- The `close_active_document` handler: 400 without an active document, 400
on an empty one, otherwise close it and synchronously generate the export. -/
def close_active_document (s : Store) (uid : Nat) (now : Nat) : Store × Except Err String :=
  match get_active_document s uid with
  | none => (s, Except.error Err.noActiveDocument)
  | some a =>
    if (docScans s a.id).isEmpty then (s, Except.error Err.emptyDocument)
    else generate_csv (close_document s a.id now) a.id

/-- The `add_new_barcode` handler: reject a whitespace-only barcode, require
an active document, then append one row holding the trimmed value. -/
def add_new_barcode (s : Store) (uid : Nat) (raw : String) (now : Nat) :
    Store × Except Err Scan :=
  if pyStrip raw == "" then (s, Except.error Err.invalidInput)
  else
    match get_active_document s uid with
    | none => (s, Except.error Err.noActiveDocument)
    | some a =>
      (add_barcode s a.id (pyStrip raw) now, Except.ok ⟨s.nextScanId, a.id, pyStrip raw, now⟩)

/-- `is_admin`: the administrator identity marker used by every privileged
handler. -/
def is_admin (name : String) : Bool := name == "admin"

/-- `get_or_create_user` (the login path): reuse the row of a known name, or
insert one when the name is present in the credential file `creds`. -/
def get_or_create_user (s : Store) (creds : List String) (name : String) (now : Nat) :
    Store × Option Nat :=
  match s.users.find? (fun u => u.name == name) with
  | some u => (s, some u.id)
  | none =>
    if creds.contains name then
      ({ s with users := s.users ++ [⟨s.nextUserId, name, now⟩],
                nextUserId := s.nextUserId + 1 }, some s.nextUserId)
    else (s, none)

/-- `add_user_to_system` (admin roster management): insert a fresh user row. -/
def add_user_to_system (s : Store) (name : String) (now : Nat) : Store × Nat :=
  ({ s with users := s.users ++ [⟨s.nextUserId, name, now⟩],
            nextUserId := s.nextUserId + 1 }, s.nextUserId)

/-- `delete_user_from_system`: cascade the user row, the user's documents and
their scans out of the store. -/
def delete_user_from_system (s : Store) (uid : Nat) : Store × Bool :=
  match findUser s uid with
  | none => (s, false)
  | some _ =>
    ({ s with
        scans := s.scans.filter (fun b =>
          !(s.docs.any (fun d => d.id == b.document_id && d.user_id == uid))),
        docs := s.docs.filter (fun d => d.user_id != uid),
        users := s.users.filter (fun u => u.id != uid) }, true)

/-- The `admin_delete_user` handler: requester must resolve to the admin
identity, self-deletion and deletion of the admin identity are refused, and a
miss of the target row surfaces as not-found. -/
def admin_delete_user (s : Store) (requesterId targetId : Nat) : Store × Except Err Bool :=
  match findUser s requesterId with
  | none => (s, Except.error Err.forbidden)
  | some u =>
    if is_admin u.name then
      if requesterId == targetId then (s, Except.error Err.forbidden)
      else
        match findUser s targetId with
        | some t =>
          if is_admin t.name then (s, Except.error Err.forbidden)
          else
            match delete_user_from_system s targetId with
            | (s1, true) => (s1, Except.ok true)
            | (s1, false) => (s1, Except.error Err.notFound)
        | none =>
          match delete_user_from_system s targetId with
          | (s1, true) => (s1, Except.ok true)
          | (s1, false) => (s1, Except.error Err.notFound)
    else (s, Except.error Err.forbidden)

/-- One row of the grouped display view produced by
`get_document_barcodes_sorted`. -/
structure GroupedRow where
  id : Nat
  barcode : String
  created_at : Nat
  is_duplicate : Bool
  total_count : Nat
  sequence_number : Nat
  color_index : Nat
  deriving DecidableEq, Repr

/-- The order of `ORDER BY barcode, created_at DESC`: barcode value ascending
(lexicographic on characters — SQLite compares TEXT by UTF-8 bytes, which
coincides with codepoint order), then timestamp descending. -/
def scanOrder (a b : Scan) : Prop :=
  List.Lex (· < ·) a.barcode.data b.barcode.data ∨
    (a.barcode = b.barcode ∧ b.created_at ≤ a.created_at)

instance : DecidableRel scanOrder := fun a b =>
  inferInstanceAs (Decidable (_ ∨ _))

/-- The document's scans in grouped-display order. -/
def sortedScans (s : Store) (docId : Nat) : List Scan :=
  List.insertionSort scanOrder (docScans s docId)

instance : IsTotal Scan createdAsc :=
  ⟨fun a b => Nat.le_total a.created_at b.created_at⟩

instance : IsTrans Scan createdAsc :=
  ⟨fun _ _ _ h1 h2 => Nat.le_trans h1 h2⟩

instance : IsTrans Scan scanOrder := by
  constructor
  rintro a b c (h1 | ⟨e1, t1⟩) (h2 | ⟨e2, t2⟩)
  · exact Or.inl (IsTrans.trans _ _ _ h1 h2)
  · exact Or.inl (congrArg String.data e2 ▸ h1)
  · exact Or.inl (congrArg String.data e1 ▸ h2)
  · exact Or.inr ⟨e1.trans e2, Nat.le_trans t2 t1⟩

instance : IsTotal Scan scanOrder := by
  constructor
  intro a b
  have htri : IsTrichotomous (List Char) (List.Lex (· < ·)) := inferInstance
  rcases htri.trichotomous a.barcode.data b.barcode.data with h | h | h
  · exact Or.inl (Or.inl h)
  · have hab : a.barcode = b.barcode := by
      cases hb : a.barcode
      cases hc : b.barcode
      rw [hb, hc] at h
      exact congrArg String.mk (by simpa using h)
    rcases Nat.le_total b.created_at a.created_at with ht | ht
    · exact Or.inl (Or.inr ⟨hab, ht⟩)
    · exact Or.inr (Or.inr ⟨hab.symm, ht⟩)
  · exact Or.inr (Or.inl h)

/-- `SELECT barcode, COUNT(*) ... GROUP BY barcode`, read back for one
value. -/
def barcodeCount (s : Store) (docId : Nat) (v : String) : Nat :=
  ((docScans s docId).filter (fun b => b.barcode == v)).length

/-- The annotation loop of `get_document_barcodes_sorted`: `seen` carries the
`barcode_sequence` dictionary of per-value counters accumulated so far. -/
def annotateRows (cnt : String → Nat) : List Scan → (String → Nat) → List GroupedRow
  | [], _ => []
  | r :: rest, seen =>
    let n := seen r.barcode + 1
    let c := cnt r.barcode
    { id := r.id, barcode := r.barcode, created_at := r.created_at,
      is_duplicate := decide (1 < c), total_count := c, sequence_number := n,
      color_index := if 1 < c then (n - 1) % 4 else 0 }
      :: annotateRows cnt rest (fun v => if v == r.barcode then n else seen v)

/-- `get_document_barcodes_sorted`: the grouped display view. -/
def get_document_barcodes_sorted (s : Store) (docId : Nat) : List GroupedRow :=
  annotateRows (barcodeCount s docId) (sortedScans s docId) (fun _ => 0)

/-! ## Well-formedness predicates

`ActiveOK` is the one-active-document-per-user invariant in pairwise form;
`IdsOK` is primary-key uniqueness of the documents table, which SQLite's
`INTEGER PRIMARY KEY AUTOINCREMENT` guarantees. -/

def ActiveOK (s : Store) : Prop :=
  s.docs.Pairwise (fun d e =>
    ¬ (d.user_id = e.user_id ∧ d.status = Status.active ∧ e.status = Status.active))

def IdsOK (s : Store) : Prop :=
  (s.docs.map Doc.id).Nodup

instance (s : Store) : Decidable (ActiveOK s) := by
  unfold ActiveOK
  infer_instance

instance (s : Store) : Decidable (IdsOK s) := by
  unfold IdsOK
  infer_instance

deriving instance DecidableEq for Except

/-! ## Further derived definitions used by the claims -/

/-- Repeated submission of the same barcode, one `add_new_barcode` request per
timestamp in `ts`. -/
def repScan (s : Store) (uid : Nat) (raw : String) : List Nat → Store
  | [] => s
  | t :: ts => repScan (add_new_barcode s uid raw t).1 uid raw ts

/-- The fresh row inserted by `create_document` when called on store `s`. -/
def newDocRow (s : Store) (uid : Nat) (dt : DocType) (comment : String) (now : Nat) : Doc :=
  ⟨s.nextDocId, uid, dt, Status.active, now, none, comment⟩

/-- The CSV data `generate_csv` writes for document `d` owned by `owner`. -/
def exportRows (s : Store) (d : Doc) (owner : String) : Csv :=
  csvHeader :: (scansByTimeAsc s d.id).map (fun b => csvRow owner d b.barcode)

/-- One core operation, as fired by one HTTP request.  Parameters (timestamps,
names, ids, payloads) are arbitrary; `openDoc` carries the §6 interface
contract that the acting `userId` was resolved by authentication, i.e. its
user row exists. -/
inductive Step : Store → Store → Prop where
  | login (s : Store) (creds : List String) (name : String) (now : Nat) :
      Step s (get_or_create_user s creds name now).1
  | openDoc (s : Store) (uid : Nat) (dt : DocType) (comment : String) (tClose tNew : Nat)
      (huser : (findUser s uid).isSome) :
      Step s (create_new_document s uid dt comment tClose tNew)
  | closeDoc (s : Store) (uid now : Nat) :
      Step s (close_active_document s uid now).1
  | scanStep (s : Store) (uid : Nat) (raw : String) (now : Nat) :
      Step s (add_new_barcode s uid raw now).1
  | deleteScan (s : Store) (scanId : Nat) :
      Step s (delete_barcode s scanId)
  | deleteDoc (s : Store) (docId uid : Nat) :
      Step s (delete_document s docId uid).1
  | adminDeleteDoc (s : Store) (docId : Nat) :
      Step s (admin_delete_document s docId).1
  | editComment (s : Store) (docId uid : Nat) (c : String) :
      Step s (update_document_comment s docId uid c).1
  | adminEditComment (s : Store) (docId : Nat) (c : String) :
      Step s (admin_update_document_comment s docId c).1
  | regen (s : Store) (docId : Nat) :
      Step s (generate_csv s docId).1
  | addUser (s : Store) (name : String) (now : Nat) :
      Step s (add_user_to_system s name now).1
  | deleteUser (s : Store) (rid tid : Nat) :
      Step s (admin_delete_user s rid tid).1

/-- States reachable from the freshly initialised store. -/
def Reachable (s : Store) : Prop :=
  Relation.ReflTransGen Step Store.empty s

/-! ## Concrete stores used to witness the theorems -/

def exUser : UserRow := ⟨1, "Alice", 0⟩

def exAdmin : UserRow := ⟨2, "admin", 0⟩

def exDoc : Doc := ⟨1, 1, DocType.receipt, Status.active, 5, none, "batch1"⟩

/-- Alice with one active Receipt document holding scans A@1, B@2, A@3, plus
the admin account. -/
def exStore : Store :=
  ⟨[exUser, exAdmin], [exDoc],
   [⟨1, 1, "A", 1⟩, ⟨2, 1, "B", 2⟩, ⟨3, 1, "A", 3⟩], [], 3, 2, 4⟩

/-- The same state with an empty document instead. -/
def exStoreEmptyDoc : Store :=
  ⟨[exUser, exAdmin], [exDoc], [], [], 3, 2, 1⟩

/-! ## Helper lemmas about the active-document query -/

theorem mem_activeDocsOf {s : Store} {uid : Nat} {d : Doc} :
    d ∈ activeDocsOf s uid ↔ d ∈ s.docs ∧ d.user_id = uid ∧ d.status = Status.active := by
  simp [activeDocsOf, List.mem_filter, and_assoc]

theorem get_active_eq_none_iff {s : Store} {uid : Nat} :
    get_active_document s uid = none ↔ activeDocsOf s uid = [] := by
  unfold get_active_document
  rw [List.head?_eq_none_iff]
  constructor
  · intro h
    have hp := List.perm_insertionSort createdDesc (activeDocsOf s uid)
    rw [h] at hp
    exact hp.symm.eq_nil
  · intro h; rw [h]; rfl

theorem get_active_mem {s : Store} {uid : Nat} {a : Doc}
    (h : get_active_document s uid = some a) : a ∈ activeDocsOf s uid := by
  unfold get_active_document at h
  have hmem : a ∈ List.insertionSort createdDesc (activeDocsOf s uid) := by
    cases hl : List.insertionSort createdDesc (activeDocsOf s uid) with
    | nil => rw [hl] at h; cases h
    | cons x xs =>
      rw [hl] at h
      simp only [List.head?_cons, Option.some.injEq] at h
      rw [← h]
      exact List.mem_cons_self x xs
  exact (List.perm_insertionSort createdDesc (activeDocsOf s uid)).mem_iff.mp hmem

theorem active_unique {s : Store} {uid : Nat} {d₁ d₂ : Doc} (h : ActiveOK s)
    (h1 : d₁ ∈ activeDocsOf s uid) (h2 : d₂ ∈ activeDocsOf s uid) : d₁ = d₂ := by
  have hp : (activeDocsOf s uid).Pairwise (fun d e =>
      ¬ (d.user_id = e.user_id ∧ d.status = Status.active ∧ e.status = Status.active)) :=
    h.filter _
  obtain ⟨-, hu1, hs1⟩ := mem_activeDocsOf.mp h1
  obtain ⟨-, hu2, hs2⟩ := mem_activeDocsOf.mp h2
  cases hl : activeDocsOf s uid with
  | nil => rw [hl] at h1; cases h1
  | cons x xs =>
    rw [hl] at h1 h2 hp
    have hxs : ∀ y ∈ xs, ¬ (x.user_id = y.user_id ∧ x.status = Status.active ∧
        y.status = Status.active) := (List.pairwise_cons.mp hp).1
    have hxu : x ∈ activeDocsOf s uid := by rw [hl]; exact List.mem_cons_self x xs
    obtain ⟨-, hux, hsx⟩ := mem_activeDocsOf.mp hxu
    rcases List.mem_cons.mp h1 with rfl | hm1
    · rcases List.mem_cons.mp h2 with rfl | hm2
      · rfl
      · exact absurd ⟨by rw [hu2, hux], hsx, hs2⟩ (hxs _ hm2)
    · exact absurd ⟨by rw [hu1, hux], hsx, hs1⟩ (hxs _ hm1)

theorem get_active_of_singleton {s : Store} {uid : Nat} {a : Doc}
    (h : activeDocsOf s uid = [a]) : get_active_document s uid = some a := by
  unfold get_active_document
  rw [h]
  rfl

/-- Under the invariant, an active document of a user is the unique element of
the user's active filter, hence what `get_active_document` returns. -/
theorem get_active_of_mem {s : Store} {uid : Nat} {a : Doc} (hwf : ActiveOK s)
    (ha : a ∈ activeDocsOf s uid) : get_active_document s uid = some a := by
  apply get_active_of_singleton
  cases hl : activeDocsOf s uid with
  | nil => rw [hl] at ha; cases ha
  | cons x xs =>
    have hx : x ∈ activeDocsOf s uid := by rw [hl]; exact List.mem_cons_self x xs
    have hax : a = x := active_unique hwf ha hx
    cases hxs : xs with
    | nil => rw [hax]
    | cons y ys =>
      have hy : y ∈ activeDocsOf s uid := by
        rw [hl, hxs]
        exact List.mem_cons.mpr (Or.inr (List.mem_cons_self y ys))
      have hxy : x = y := active_unique hwf hx hy
      have hnd : (activeDocsOf s uid).Pairwise (fun d e =>
          ¬ (d.user_id = e.user_id ∧ d.status = Status.active ∧ e.status = Status.active)) :=
        hwf.filter _
      rw [hl, hxs] at hnd
      have := (List.pairwise_cons.mp hnd).1 y (List.mem_cons_self y ys)
      obtain ⟨-, hu, hs⟩ := mem_activeDocsOf.mp hx
      exact absurd ⟨by rw [hxy], hs, hxy ▸ hs⟩ this

theorem activeDocsOf_length_le_one {s : Store} (h : ActiveOK s) (uid : Nat) :
    (activeDocsOf s uid).length ≤ 1 := by
  cases hl : activeDocsOf s uid with
  | nil => simp
  | cons x xs =>
    cases hxs : xs with
    | nil => simp
    | cons y ys =>
      exfalso
      have hx : x ∈ activeDocsOf s uid := by rw [hl]; exact List.mem_cons_self x xs
      have hy : y ∈ activeDocsOf s uid := by
        rw [hl, hxs]
        exact List.mem_cons.mpr (Or.inr (List.mem_cons_self y ys))
      have hxy : x = y := active_unique h hx hy
      have hnd : (activeDocsOf s uid).Pairwise (fun d e =>
          ¬ (d.user_id = e.user_id ∧ d.status = Status.active ∧ e.status = Status.active)) :=
        h.filter _
      rw [hl, hxs] at hnd
      have := (List.pairwise_cons.mp hnd).1 y (List.mem_cons_self y ys)
      obtain ⟨-, hu, hs⟩ := mem_activeDocsOf.mp hx
      exact absurd ⟨by rw [hxy], hs, hxy ▸ hs⟩ this

/-! ## A `find?` lemma for tables with unique primary keys -/

theorem find?_eq_some_of_nodup_ids {l : List Doc} {p : Doc → Bool} {d : Doc}
    (hn : (l.map Doc.id).Nodup) (hd : d ∈ l) (hpd : p d = true)
    (hp : ∀ e, p e = true → e.id = d.id) : l.find? p = some d := by
  induction l with
  | nil => cases hd
  | cons x xs ih =>
    rw [List.map_cons, List.nodup_cons] at hn
    cases hpx : p x with
    | true =>
      have hxd : x.id = d.id := hp x hpx
      rcases List.mem_cons.mp hd with rfl | hmem
      · simp [List.find?, hpx]
      · exfalso
        exact hn.1 (by rw [hxd]; exact List.mem_map_of_mem Doc.id hmem)
    | false =>
      have hxd : x ≠ d := by
        intro hcon
        rw [hcon] at hpx
        rw [hpd] at hpx
        cases hpx
      rcases List.mem_cons.mp hd with rfl | hmem
      · exact absurd rfl hxd
      · simp only [List.find?, hpx]
        exact ih hn.2 hmem

/-! ## Scan append semantics -/

/-- Inversion of a successful `add_new_barcode` call. -/
theorem add_new_barcode_ok {s s' : Store} {uid now : Nat} {raw : String} {res : Scan}
    (h : add_new_barcode s uid raw now = (s', Except.ok res)) :
    ∃ a, get_active_document s uid = some a ∧ pyStrip raw ≠ "" ∧
      res = ⟨s.nextScanId, a.id, pyStrip raw, now⟩ ∧
      s' = add_barcode s a.id (pyStrip raw) now := by
  unfold add_new_barcode at h
  by_cases he : pyStrip raw = ""
  · simp [he] at h
  · rw [if_neg (by simpa using he)] at h
    cases hact : get_active_document s uid with
    | none => rw [hact] at h; simp at h
    | some a =>
      rw [hact] at h
      obtain ⟨h1, h2⟩ := Prod.mk.injEq .. ▸ h
      exact ⟨a, rfl, he, (Except.ok.injEq .. ▸ h2).symm, h1.symm⟩

theorem add_new_barcode_fst_scans (s : Store) (uid : Nat) (raw : String) (now : Nat) :
    ∃ l, (add_new_barcode s uid raw now).1.scans = s.scans ++ l ∧
      (add_new_barcode s uid raw now).1.docs = s.docs := by
  unfold add_new_barcode
  by_cases he : pyStrip raw = ""
  · exact ⟨[], by simp [he], by simp [he]⟩
  · rw [if_neg (by simpa using he)]
    cases hact : get_active_document s uid with
    | none => exact ⟨[], by simp, by simp⟩
    | some a => exact ⟨[⟨s.nextScanId, a.id, pyStrip raw, now⟩], rfl, rfl⟩

theorem get_active_congr {s t : Store} (h : t.docs = s.docs) (uid : Nat) :
    get_active_document t uid = get_active_document s uid := by
  unfold get_active_document activeDocsOf
  rw [h]

theorem repScan_spec (uid : Nat) (raw : String) (hne : pyStrip raw ≠ "") :
    ∀ (ts : List Nat) (s : Store) (a : Doc), get_active_document s uid = some a →
      ∃ rows, (repScan s uid raw ts).scans = s.scans ++ rows ∧
        rows.length = ts.length ∧
        rows.map Scan.id = List.range' s.nextScanId ts.length ∧
        ∀ r ∈ rows, r.barcode = pyStrip raw ∧ r.document_id = a.id := by
  intro ts
  induction ts with
  | nil => exact fun s a _ => ⟨[], by simp [repScan], rfl, rfl, by simp⟩
  | cons t ts ih =>
    intro s a ha
    have hstep : add_new_barcode s uid raw t =
        (add_barcode s a.id (pyStrip raw) t, Except.ok ⟨s.nextScanId, a.id, pyStrip raw, t⟩) := by
      unfold add_new_barcode
      rw [if_neg (by simpa using hne), ha]
    have ha1 : get_active_document (add_barcode s a.id (pyStrip raw) t) uid = some a := by
      rw [get_active_congr rfl]; exact ha
    obtain ⟨rows, h1, h2, h3, h4⟩ := ih (add_barcode s a.id (pyStrip raw) t) a ha1
    refine ⟨⟨s.nextScanId, a.id, pyStrip raw, t⟩ :: rows, ?_, by simp [h2], ?_, ?_⟩
    · simp only [repScan, hstep]
      rw [h1]
      simp [add_barcode]
    · have hnext : (add_barcode s a.id (pyStrip raw) t).nextScanId = s.nextScanId + 1 := rfl
      rw [List.map_cons, h3, hnext]
      simp [List.range'_succ, List.length_cons]
    · intro r hr
      rcases List.mem_cons.mp hr with rfl | hr
      · exact ⟨rfl, rfl⟩
      · exact h4 r hr

/-- C9.  `scan` fails with `InvalidInput` exactly when the trimmed barcode is
empty, fails with `NoActiveDocument` when the user has no active document, and
otherwise appends exactly one new row (trimmed value, fresh id) to the active
document; repeating the identical code over `ts` timestamps appends
`ts.length` rows with pairwise distinct ids — no deduplication or
rate-limiting. -/
theorem scan_append_semantics (s : Store) (uid : Nat) (raw : String) (now : Nat) :
    (pyStrip raw = "" → add_new_barcode s uid raw now = (s, Except.error Err.invalidInput))
    ∧ ((add_new_barcode s uid raw now).2 = Except.error Err.invalidInput → pyStrip raw = "")
    ∧ (pyStrip raw ≠ "" → get_active_document s uid = none →
        add_new_barcode s uid raw now = (s, Except.error Err.noActiveDocument))
    ∧ (∀ a, pyStrip raw ≠ "" → get_active_document s uid = some a →
        add_new_barcode s uid raw now =
          ({ s with scans := s.scans ++ [⟨s.nextScanId, a.id, pyStrip raw, now⟩],
                    nextScanId := s.nextScanId + 1 },
           Except.ok ⟨s.nextScanId, a.id, pyStrip raw, now⟩))
    ∧ (∀ a (ts : List Nat), pyStrip raw ≠ "" → get_active_document s uid = some a →
        ∃ rows, (repScan s uid raw ts).scans = s.scans ++ rows ∧
          rows.length = ts.length ∧
          (rows.map Scan.id).Nodup ∧
          ∀ r ∈ rows, r.barcode = pyStrip raw ∧ r.document_id = a.id) := by
  refine ⟨?_, ?_, ?_, ?_, ?_⟩
  · intro he
    unfold add_new_barcode
    rw [if_pos (by simpa using he)]
  · intro he
    unfold add_new_barcode at he
    by_cases h : pyStrip raw = ""
    · exact h
    · exfalso
      rw [if_neg (by simpa using h)] at he
      cases hact : get_active_document s uid with
      | none => rw [hact] at he; simp at he
      | some a => rw [hact] at he; simp at he
  · intro hne hact
    unfold add_new_barcode
    rw [if_neg (by simpa using hne), hact]
  · intro a hne hact
    unfold add_new_barcode
    rw [if_neg (by simpa using hne), hact]
    rfl
  · intro a ts hne hact
    obtain ⟨rows, h1, h2, h3, h4⟩ := repScan_spec uid raw hne ts s a hact
    exact ⟨rows, h1, h2, by rw [h3]; exact List.nodup_range' _ _, h4⟩

/-- C10.  A successful `scan` persists the submitted barcode with surrounding
whitespace stripped, appending exactly that row; two raw inputs equal after
trimming persist identical barcode values (and hence are treated identically
by the grouped view and the export, which read the stored value). -/
theorem scan_persists_trimmed_value (s : Store) (uid : Nat) (raw : String) (now : Nat)
    (s' : Store) (res : Scan)
    (h : add_new_barcode s uid raw now = (s', Except.ok res)) :
    res.barcode = pyStrip raw ∧ s'.scans = s.scans ++ [res]
    ∧ ∀ s₂ uid₂ raw₂ now₂ s₂' res₂, pyStrip raw₂ = pyStrip raw →
        add_new_barcode s₂ uid₂ raw₂ now₂ = (s₂', Except.ok res₂) →
        res₂.barcode = res.barcode := by
  obtain ⟨a, hact, hne, hres, hs'⟩ := add_new_barcode_ok h
  refine ⟨by rw [hres], ?_, ?_⟩
  · rw [hs', hres]
    rfl
  · intro s₂ uid₂ raw₂ now₂ s₂' res₂ htrim h₂
    obtain ⟨a₂, hact₂, hne₂, hres₂, hs₂'⟩ := add_new_barcode_ok h₂
    rw [hres, hres₂]
    simpa using htrim

/-- Witness for C9: scanning `" A "` into Alice's active document appends one
row holding the trimmed value `"A"` with the fresh id. -/
theorem scan_append_semantics_witness :
    add_new_barcode exStore 1 " A " 9 =
      ({ exStore with
          scans := exStore.scans ++ [⟨exStore.nextScanId, exDoc.id, pyStrip " A ", 9⟩],
          nextScanId := exStore.nextScanId + 1 },
       Except.ok ⟨exStore.nextScanId, exDoc.id, pyStrip " A ", 9⟩) :=
  (scan_append_semantics exStore 1 " A " 9).2.2.2.1 exDoc (by decide) (by decide)

/-- Witness for C10 at the same concrete call. -/
theorem scan_persists_trimmed_value_witness :
    (⟨4, 1, "A", 9⟩ : Scan).barcode = pyStrip " A " ∧
    ({ exStore with scans := exStore.scans ++ [⟨4, 1, "A", 9⟩], nextScanId := 5 } : Store).scans
      = exStore.scans ++ [(⟨4, 1, "A", 9⟩ : Scan)] ∧
    ∀ s₂ uid₂ raw₂ now₂ s₂' res₂, pyStrip raw₂ = pyStrip " A " →
        add_new_barcode s₂ uid₂ raw₂ now₂ = (s₂', Except.ok res₂) →
        res₂.barcode = (⟨4, 1, "A", 9⟩ : Scan).barcode :=
  scan_persists_trimmed_value exStore 1 " A " 9
    { exStore with scans := exStore.scans ++ [⟨4, 1, "A", 9⟩], nextScanId := 5 }
    ⟨4, 1, "A", 9⟩ (by decide)

/-! ## Admin protection of `deleteUser` -/

/-- C7.  `admin_delete_user` refuses, leaving the store untouched, whenever
the target resolves to the administrator identity (whoever the requester is),
and likewise whenever the target is the requester itself. -/
theorem deleteUser_admin_protection (s : Store) (rid tid : Nat) :
    (∀ t, findUser s tid = some t → is_admin t.name = true →
      admin_delete_user s rid tid = (s, Except.error Err.forbidden))
    ∧ (rid = tid → admin_delete_user s rid tid = (s, Except.error Err.forbidden)) := by
  constructor
  · intro t ht hadm
    unfold admin_delete_user
    cases hr : findUser s rid with
    | none => rfl
    | some u =>
      dsimp only
      cases hu : is_admin u.name with
      | false => rw [if_neg (by simp)]
      | true =>
        rw [if_pos rfl]
        by_cases hrt : rid = tid
        · rw [if_pos (by simpa using hrt)]
        · rw [if_neg (by simpa using hrt)]
          simp only [ht]
          rw [if_pos hadm]
  · intro hrt
    unfold admin_delete_user
    cases hr : findUser s rid with
    | none => rfl
    | some u =>
      dsimp only
      cases hu : is_admin u.name with
      | false => rw [if_neg (by simp)]
      | true =>
        rw [if_pos rfl, if_pos (by simpa using hrt)]

/-- Witness for C7: the admin requester targeting the admin identity itself
(distinct requester row) is refused. -/
theorem deleteUser_admin_protection_witness :
    admin_delete_user exStore 1 2 = (exStore, Except.error Err.forbidden) :=
  (deleteUser_admin_protection exStore 1 2).1 exAdmin (by decide) (by decide)

/-! ## Export generation -/

theorem findDoc_congr {s t : Store} (h : t.docs = s.docs) (docId : Nat) :
    findDoc t docId = findDoc s docId := by
  unfold findDoc
  rw [h]

theorem findUser_congr {s t : Store} (h : t.users = s.users) (uid : Nat) :
    findUser t uid = findUser s uid := by
  unfold findUser
  rw [h]

theorem scansByTimeAsc_congr {s t : Store} (h : t.scans = s.scans) (docId : Nat) :
    scansByTimeAsc t docId = scansByTimeAsc s docId := by
  unfold scansByTimeAsc docScans
  rw [h]

theorem putFile_idem (fs : List (String × Csv)) (n : String) (c : Csv) :
    putFile (putFile fs n c) n c = putFile fs n c := by
  unfold putFile
  rw [List.filter_append]
  simp [List.filter_filter]

theorem generate_csv_eq_err {s : Store} {docId : Nat}
    (hd : findDoc s docId = none) :
    generate_csv s docId = (s, Except.error Err.notFound) := by
  simp only [generate_csv, hd]

theorem generate_csv_eq_err_user {s : Store} {docId : Nat} {d : Doc}
    (hd : findDoc s docId = some d) (hu : findUser s d.user_id = none) :
    generate_csv s docId = (s, Except.error Err.notFound) := by
  simp only [generate_csv, hd, hu]

theorem generate_csv_eq_ok {s : Store} {docId : Nat} {d : Doc} {u : UserRow}
    (hd : findDoc s docId = some d) (hu : findUser s d.user_id = some u) :
    generate_csv s docId =
      ({ s with files := (putFile s.files (csvFilename d.doc_type u.name d.created_at)
          (csvHeader :: (scansByTimeAsc s docId).map (fun b => csvRow u.name d b.barcode))) },
       Except.ok (csvFilename d.doc_type u.name d.created_at)) := by
  simp only [generate_csv, hd, hu]

/-- C5.  `generate` fails with `NotFound` when the document does not exist;
for an existing document (with its owner row, per the FK) it writes, under the
filename `{doc_type}_{owner}_{created_at}.csv`, a CSV made of the header row
followed by exactly one data row per scan — the scans ordered ascending by
`created_at` — where every data row repeats the document's owner, date, type
and comment and differs only in the barcode cell; the filename is returned. -/
theorem generate_csv_spec (s : Store) (docId : Nat) :
    (findDoc s docId = none → generate_csv s docId = (s, Except.error Err.notFound))
    ∧ (∀ d u, findDoc s docId = some d → findUser s d.user_id = some u →
        generate_csv s docId =
          ({ s with files := (putFile s.files (csvFilename d.doc_type u.name d.created_at)
              (csvHeader :: (scansByTimeAsc s docId).map (fun b => csvRow u.name d b.barcode))) },
           Except.ok (csvFilename d.doc_type u.name d.created_at))
        ∧ (scansByTimeAsc s docId).Perm (docScans s docId)
        ∧ List.Sorted createdAsc (scansByTimeAsc s docId)
        ∧ ∀ b ∈ docScans s docId, b.document_id = docId) := by
  constructor
  · exact generate_csv_eq_err
  · intro d u hd hu
    refine ⟨generate_csv_eq_ok hd hu, ?_, ?_, ?_⟩
    · exact List.perm_insertionSort createdAsc (docScans s docId)
    · exact List.sorted_insertionSort createdAsc (docScans s docId)
    · intro b hb
      have := (List.mem_filter.mp hb).2
      simpa using this

/-- Witness for C5 on the concrete store: Alice's Receipt document with scans
A@1, B@2, A@3. -/
theorem generate_csv_spec_witness :
    generate_csv exStore 1 =
      ({ exStore with files := (putFile exStore.files
          (csvFilename exDoc.doc_type exUser.name exDoc.created_at)
          (csvHeader :: (scansByTimeAsc exStore 1).map
            (fun b => csvRow exUser.name exDoc b.barcode))) },
       Except.ok (csvFilename exDoc.doc_type exUser.name exDoc.created_at)) :=
  ((generate_csv_spec exStore 1).2 exDoc exUser (by decide) (by decide)).1

/-- C6.  Export regeneration is deterministic: a second `generate` on the
unchanged document reproduces the identical store (same artifact bytes at the
same path) and the identical returned filename; moreover the outcome filename
depends only on the `documents` and `users` tables — any two stores agreeing
there (whatever their scans) receive the identical filename. -/
theorem export_determinism (s : Store) (docId : Nat) :
    generate_csv (generate_csv s docId).1 docId = generate_csv s docId
    ∧ ∀ s₂ : Store, s.docs = s₂.docs → s.users = s₂.users →
        (generate_csv s docId).2 = (generate_csv s₂ docId).2 := by
  constructor
  · cases hd : findDoc s docId with
    | none => rw [generate_csv_eq_err hd, generate_csv_eq_err hd]
    | some d =>
      cases hu : findUser s d.user_id with
      | none =>
        rw [generate_csv_eq_err_user hd hu, generate_csv_eq_err_user hd hu]
      | some u =>
        rw [generate_csv_eq_ok hd hu]
        have hd1 : findDoc ({ s with files := (putFile s.files
            (csvFilename d.doc_type u.name d.created_at)
            (csvHeader :: (scansByTimeAsc s docId).map (fun b => csvRow u.name d b.barcode))) })
            docId = some d := hd
        have hu1 : findUser ({ s with files := (putFile s.files
            (csvFilename d.doc_type u.name d.created_at)
            (csvHeader :: (scansByTimeAsc s docId).map (fun b => csvRow u.name d b.barcode))) })
            d.user_id = some u := hu
        rw [generate_csv_eq_ok hd1 hu1]
        have hsc : scansByTimeAsc ({ s with files := (putFile s.files
            (csvFilename d.doc_type u.name d.created_at)
            (csvHeader :: (scansByTimeAsc s docId).map (fun b => csvRow u.name d b.barcode))) })
            docId = scansByTimeAsc s docId := rfl
        rw [hsc, putFile_idem]
  · intro s₂ hdocs husers
    have hfd : findDoc s₂ docId = findDoc s docId := findDoc_congr hdocs.symm docId
    cases hd : findDoc s docId with
    | none =>
      rw [generate_csv_eq_err hd, generate_csv_eq_err (hfd.trans hd)]
    | some d =>
      have hfu : findUser s₂ d.user_id = findUser s d.user_id :=
        findUser_congr husers.symm d.user_id
      cases hu : findUser s d.user_id with
      | none =>
        rw [generate_csv_eq_err_user hd hu,
            generate_csv_eq_err_user (hfd.trans hd) (hfu.trans hu)]
      | some u =>
        rw [generate_csv_eq_ok hd hu,
            generate_csv_eq_ok (hfd.trans hd) (hfu.trans hu)]

/-- Witness for C6: the filename is the same whether or not the scans table
still holds its rows. -/
theorem export_determinism_witness :
    (generate_csv exStore 1).2 = (generate_csv { exStore with scans := [] } 1).2 :=
  (export_determinism exStore 1).2 { exStore with scans := [] } rfl rfl

/-! ## Document deletion -/

/-- C8.  `delete_document` returns `False` and changes nothing when no
document with the given id belongs to the requester; otherwise (FK intact) it
removes exactly the document's scan rows, its export artifact when the
document was closed, and the document row, leaving users and all other rows in
place, and returns `True`.  The admin variant behaves identically minus the
ownership condition. -/
theorem delete_document_spec (s : Store) (docId uid : Nat) :
    ((∀ d ∈ s.docs, ¬ (d.id = docId ∧ d.user_id = uid)) →
      delete_document s docId uid = (s, false))
    ∧ (∀ d u, IdsOK s → d ∈ s.docs → d.id = docId → d.user_id = uid →
        findUser s uid = some u →
        delete_document s docId uid =
          ({ s with
              files := (if d.status == Status.closed
                then removeFile s.files (csvFilename d.doc_type u.name d.created_at)
                else s.files),
              scans := s.scans.filter (fun b => b.document_id != docId),
              docs := s.docs.filter (fun e => e.id != docId) }, true))
    ∧ ((∀ d ∈ s.docs, d.id ≠ docId) → admin_delete_document s docId = (s, false))
    ∧ (∀ d u, IdsOK s → d ∈ s.docs → d.id = docId →
        findUser s d.user_id = some u →
        admin_delete_document s docId =
          ({ s with
              files := (if d.status == Status.closed
                then removeFile s.files (csvFilename d.doc_type u.name d.created_at)
                else s.files),
              scans := s.scans.filter (fun b => b.document_id != docId),
              docs := s.docs.filter (fun e => e.id != docId) }, true)) := by
  refine ⟨?_, ?_, ?_, ?_⟩
  · intro h
    have hfind : s.docs.find? (fun e => e.id == docId && e.user_id == uid) = none := by
      rw [List.find?_eq_none]
      intro x hx
      simpa using h x hx
    unfold delete_document
    rw [hfind]
  · intro d u hids hd hdid hduid hu
    have hfind : s.docs.find? (fun e => e.id == docId && e.user_id == uid) = some d := by
      apply find?_eq_some_of_nodup_ids hids hd
      · simp [hdid, hduid]
      · intro e he
        simp only [Bool.and_eq_true, beq_iff_eq] at he
        rw [he.1, hdid]
    unfold delete_document
    rw [hfind]
    dsimp only
    rw [hduid, hu]
  · intro h
    have hfind : s.docs.find? (fun e => e.id == docId) = none := by
      rw [List.find?_eq_none]
      intro x hx
      simpa using h x hx
    unfold admin_delete_document
    rw [hfind]
  · intro d u hids hd hdid hu
    have hfind : s.docs.find? (fun e => e.id == docId) = some d := by
      apply find?_eq_some_of_nodup_ids hids hd
      · simp [hdid]
      · intro e he
        simp only [beq_iff_eq] at he
        rw [he, hdid]
    unfold admin_delete_document
    rw [hfind]
    dsimp only
    rw [hu]

/-- Witness for C8: deleting Alice's document cascades its three scans and
returns `True`. -/
theorem delete_document_spec_witness :
    delete_document exStore 1 1 =
      ({ exStore with
          files := (if exDoc.status == Status.closed
            then removeFile exStore.files
              (csvFilename exDoc.doc_type exUser.name exDoc.created_at)
            else exStore.files),
          scans := exStore.scans.filter (fun b => b.document_id != 1),
          docs := exStore.docs.filter (fun e => e.id != 1) }, true) :=
  (delete_document_spec exStore 1 1).2.1 exDoc exUser (by decide) (by decide)
    (by decide) (by decide) (by decide)

/-! ## Closing the active document -/

theorem closeUpd_id (docId now : Nat) (d : Doc) : (closeUpd docId now d).id = d.id := by
  unfold closeUpd
  split <;> rfl

theorem findDoc_close {s : Store} {a : Doc} (hids : IdsOK s) (ha : a ∈ s.docs) (now : Nat) :
    findDoc (close_document s a.id now) a.id =
      some { a with status := Status.closed, closed_at := some now } := by
  have hfa : closeUpd a.id now a = { a with status := Status.closed, closed_at := some now } := by
    unfold closeUpd
    rw [if_pos (by simp)]
  unfold findDoc close_document
  dsimp only
  rw [← hfa]
  apply find?_eq_some_of_nodup_ids
  · have : (s.docs.map (closeUpd a.id now)).map Doc.id = s.docs.map Doc.id := by
      rw [List.map_map]
      apply List.map_congr_left
      intro e _
      exact closeUpd_id a.id now e
    rw [this]
    exact hids
  · exact List.mem_map_of_mem (closeUpd a.id now) ha
  · simp [closeUpd_id]
  · intro e he
    simp only [beq_iff_eq] at he
    rw [he, closeUpd_id]

/-- C3.  `closeDocument` fails with `NoActiveDocument` when the user has no
active document and with `EmptyDocument` when the active document has no
scans; in both failure cases nothing is written and the document (if any)
remains active.  Otherwise it closes the document (stamping `closed_at`),
synchronously writes the export artifact and returns its filename. -/
theorem close_document_spec (s : Store) (uid now : Nat) :
    (get_active_document s uid = none →
      close_active_document s uid now = (s, Except.error Err.noActiveDocument))
    ∧ (∀ a, get_active_document s uid = some a → docScans s a.id = [] →
        close_active_document s uid now = (s, Except.error Err.emptyDocument)
        ∧ a ∈ s.docs ∧ a.status = Status.active)
    ∧ (∀ a u, get_active_document s uid = some a → docScans s a.id ≠ [] →
        IdsOK s → findUser s uid = some u →
        close_active_document s uid now =
          ({ s with
              docs := s.docs.map (closeUpd a.id now),
              files := (putFile s.files (csvFilename a.doc_type u.name a.created_at)
                (csvHeader :: (scansByTimeAsc s a.id).map
                  (fun b => csvRow u.name a b.barcode))) },
           Except.ok (csvFilename a.doc_type u.name a.created_at))) := by
  refine ⟨?_, ?_, ?_⟩
  · intro h
    unfold close_active_document
    rw [h]
  · intro a ha hempty
    refine ⟨?_, (mem_activeDocsOf.mp (get_active_mem ha)).1,
      (mem_activeDocsOf.mp (get_active_mem ha)).2.2⟩
    unfold close_active_document
    rw [ha]
    dsimp only
    rw [if_pos (by simp [hempty])]
  · intro a u ha hne hids hu
    have hmem : a ∈ s.docs := (mem_activeDocsOf.mp (get_active_mem ha)).1
    have hauid : a.user_id = uid := (mem_activeDocsOf.mp (get_active_mem ha)).2.1
    unfold close_active_document
    rw [ha]
    dsimp only
    rw [if_neg (by simp [List.isEmpty_iff, hne])]
    have hfd := findDoc_close hids hmem now
    have hu' : findUser (close_document s a.id now)
        ({ a with status := Status.closed, closed_at := some now } : Doc).user_id = some u := by
      show findUser s a.user_id = some u
      rw [hauid]
      exact hu
    rw [generate_csv_eq_ok hfd hu']
    rfl

/-- Witness for C3: closing Alice's Receipt document (three scans) closes it,
writes the export and returns its filename. -/
theorem close_document_spec_witness :
    close_active_document exStore 1 7 =
      ({ exStore with
          docs := exStore.docs.map (closeUpd exDoc.id 7),
          files := (putFile exStore.files
            (csvFilename exDoc.doc_type exUser.name exDoc.created_at)
            (csvHeader :: (scansByTimeAsc exStore exDoc.id).map
              (fun b => csvRow exUser.name exDoc b.barcode))) },
       Except.ok (csvFilename exDoc.doc_type exUser.name exDoc.created_at)) :=
  (close_document_spec exStore 1 7).2.2 exDoc exUser (by decide) (by decide)
    (by decide) (by decide)

/-! ## Opening a document: the dispatch on the current active document -/

theorem delete_document_eq_ok {s : Store} {docId uid : Nat} {d : Doc} {u : UserRow}
    (hids : IdsOK s) (hd : d ∈ s.docs) (hdid : d.id = docId) (hduid : d.user_id = uid)
    (hu : findUser s uid = some u) :
    delete_document s docId uid =
      ({ s with
          files := (if d.status == Status.closed
            then removeFile s.files (csvFilename d.doc_type u.name d.created_at)
            else s.files),
          scans := s.scans.filter (fun b => b.document_id != docId),
          docs := s.docs.filter (fun e => e.id != docId) }, true) := by
  have hfind : s.docs.find? (fun e => e.id == docId && e.user_id == uid) = some d := by
    apply find?_eq_some_of_nodup_ids hids hd
    · simp [hdid, hduid]
    · intro e he
      simp only [Bool.and_eq_true, beq_iff_eq] at he
      rw [he.1, hdid]
  unfold delete_document
  rw [hfind]
  dsimp only
  rw [hduid, hu]

theorem create_same_type_noop {s : Store} {uid : Nat} {dt : DocType} {a : Doc}
    (ha : get_active_document s uid = some a) (hdt : a.doc_type = dt)
    (c : String) (tc tn : Nat) :
    create_new_document s uid dt c tc tn = s := by
  unfold create_new_document
  rw [ha]
  dsimp only
  rw [if_pos (by simpa using hdt)]

theorem filter_ne_of_docScans_nil {s : Store} {i : Nat} (h : docScans s i = []) :
    s.scans.filter (fun b => b.document_id != i) = s.scans := by
  rw [List.filter_eq_self]
  intro b hb
  have := List.filter_eq_nil_iff.mp h b hb
  simpa using this

theorem no_active_after_del {s : Store} {uid : Nat} {a : Doc} (hwf : ActiveOK s)
    (ha : get_active_document s uid = some a) :
    (s.docs.filter (fun e => e.id != a.id)).filter
      (fun d => d.user_id == uid && d.status == Status.active) = [] := by
  rw [List.filter_eq_nil_iff]
  intro d hd hp
  obtain ⟨hmem, hne⟩ := List.mem_filter.mp hd
  have hda : d = a := active_unique hwf (List.mem_filter.mpr ⟨hmem, hp⟩) (get_active_mem ha)
  rw [hda] at hne
  simp at hne

theorem no_active_after_close {s : Store} {uid : Nat} {a : Doc} (hwf : ActiveOK s)
    (ha : get_active_document s uid = some a) (tc : Nat) :
    (s.docs.map (closeUpd a.id tc)).filter
      (fun d => d.user_id == uid && d.status == Status.active) = [] := by
  rw [List.filter_eq_nil_iff]
  intro x hx hp
  simp only [Bool.and_eq_true, beq_iff_eq] at hp
  obtain ⟨d0, hd0, hfd0⟩ := List.mem_map.mp hx
  by_cases hid : d0.id = a.id
  · have hclosed : x.status = Status.closed := by
      rw [← hfd0]
      unfold closeUpd
      rw [if_pos (by simpa using hid)]
    rw [hclosed] at hp
    cases hp.2
  · have hxd : x = d0 := by
      rw [← hfd0]
      unfold closeUpd
      rw [if_neg (by simpa using hid)]
    rw [hxd] at hp
    have hmem : d0 ∈ activeDocsOf s uid :=
      List.mem_filter.mpr ⟨hd0, by simp [hp.1, hp.2]⟩
    exact hid (congrArg Doc.id (active_unique hwf hmem (get_active_mem ha)))

/-- C2.  With an active document `a` present, `openDocument` dispatches: same
requested type — the store is untouched and a repeated call changes nothing
either (idempotent re-open, same document id); different type and no scans —
the stale row is deleted (no artifact existed for an active document) and a
fresh active document of the requested type with the trimmed comment is
created and becomes the user's active document; different type with scans —
the stale row is closed with `closed_at` stamped and its export artifact
written, then the fresh document is created likewise. -/
theorem open_document_dispatch (s : Store) (uid : Nat) (dt : DocType) (c : String)
    (tc tn : Nat) (a : Doc) (u : UserRow)
    (hwf : ActiveOK s) (hids : IdsOK s)
    (hu : findUser s uid = some u) (ha : get_active_document s uid = some a) :
    (a.doc_type = dt → create_new_document s uid dt c tc tn = s ∧
      ∀ c' tc' tn', create_new_document (create_new_document s uid dt c tc tn) uid dt c' tc' tn'
        = s)
    ∧ (a.doc_type ≠ dt → docScans s a.id = [] →
        create_new_document s uid dt c tc tn =
          { s with
            docs := (s.docs.filter (fun e => e.id != a.id) ++ [newDocRow s uid dt (pyStrip c) tn]),
            nextDocId := s.nextDocId + 1 }
        ∧ get_active_document (create_new_document s uid dt c tc tn) uid
            = some (newDocRow s uid dt (pyStrip c) tn))
    ∧ (a.doc_type ≠ dt → docScans s a.id ≠ [] →
        create_new_document s uid dt c tc tn =
          { s with
            docs := (s.docs.map (closeUpd a.id tc) ++ [newDocRow s uid dt (pyStrip c) tn]),
            files := (putFile s.files (csvFilename a.doc_type u.name a.created_at)
              (csvHeader :: (scansByTimeAsc s a.id).map (fun b => csvRow u.name a b.barcode))),
            nextDocId := s.nextDocId + 1 }
        ∧ get_active_document (create_new_document s uid dt c tc tn) uid
            = some (newDocRow s uid dt (pyStrip c) tn)) := by
  have hmem : a ∈ s.docs := (mem_activeDocsOf.mp (get_active_mem ha)).1
  have hauid : a.user_id = uid := (mem_activeDocsOf.mp (get_active_mem ha)).2.1
  have hact : a.status = Status.active := (mem_activeDocsOf.mp (get_active_mem ha)).2.2
  refine ⟨?_, ?_, ?_⟩
  · intro hdt
    have h1 := create_same_type_noop ha hdt c tc tn
    refine ⟨h1, fun c' tc' tn' => ?_⟩
    rw [h1]
    exact create_same_type_noop ha hdt c' tc' tn'
  · intro hdt hempty
    have key : create_new_document s uid dt c tc tn =
        { s with
          docs := (s.docs.filter (fun e => e.id != a.id) ++ [newDocRow s uid dt (pyStrip c) tn]),
          nextDocId := s.nextDocId + 1 } := by
      unfold create_new_document
      rw [ha]
      dsimp only
      rw [if_neg (by simpa using hdt), if_pos (by simp [hempty])]
      rw [delete_document_eq_ok hids hmem rfl hauid hu]
      dsimp only
      rw [hact]
      rw [if_neg (by decide), filter_ne_of_docScans_nil hempty]
      rfl
    refine ⟨key, ?_⟩
    rw [key]
    apply get_active_of_singleton
    unfold activeDocsOf
    dsimp only
    rw [List.filter_append, no_active_after_del hwf ha]
    simp [newDocRow]
  · intro hdt hne
    have hfd := findDoc_close hids hmem tc
    have hu' : findUser (close_document s a.id tc)
        ({ a with status := Status.closed, closed_at := some tc } : Doc).user_id = some u := by
      show findUser s a.user_id = some u
      rw [hauid]
      exact hu
    have key : create_new_document s uid dt c tc tn =
        { s with
          docs := (s.docs.map (closeUpd a.id tc) ++ [newDocRow s uid dt (pyStrip c) tn]),
          files := (putFile s.files (csvFilename a.doc_type u.name a.created_at)
            (csvHeader :: (scansByTimeAsc s a.id).map (fun b => csvRow u.name a b.barcode))),
          nextDocId := s.nextDocId + 1 } := by
      unfold create_new_document
      rw [ha]
      dsimp only
      rw [if_neg (by simpa using hdt), if_neg (by simp [List.isEmpty_iff, hne])]
      rw [generate_csv_eq_ok hfd hu']
      rfl
    refine ⟨key, ?_⟩
    rw [key]
    apply get_active_of_singleton
    unfold activeDocsOf
    dsimp only
    rw [List.filter_append, no_active_after_close hwf ha]
    simp [newDocRow]

/-- Witness for C2: opening an Inventory document while the active Receipt
document holds scans closes and exports the latter, then creates the new
active document. -/
theorem open_document_dispatch_witness :
    create_new_document exStore 1 DocType.inventory " note " 7 8 =
      { exStore with
        docs := (exStore.docs.map (closeUpd exDoc.id 7) ++ [newDocRow exStore 1 DocType.inventory (pyStrip " note ") 8]),
        files := (putFile exStore.files
          (csvFilename exDoc.doc_type exUser.name exDoc.created_at)
          (csvHeader :: (scansByTimeAsc exStore exDoc.id).map
            (fun b => csvRow exUser.name exDoc b.barcode))),
        nextDocId := exStore.nextDocId + 1 }
    ∧ get_active_document (create_new_document exStore 1 DocType.inventory " note " 7 8) 1
        = some (newDocRow exStore 1 DocType.inventory (pyStrip " note ") 8) :=
  (open_document_dispatch exStore 1 DocType.inventory " note " 7 8 exDoc exUser
    (by decide) (by decide) (by decide) (by decide)).2.2 (by decide) (by decide)

/-! ## The one-active-document invariant -/

theorem activeOK_docs_cast {t s : Store} (h : t.docs = s.docs) (hw : ActiveOK s) :
    ActiveOK t := by
  unfold ActiveOK at *
  rw [h]
  exact hw

theorem activeOK_docs_filter {t s : Store} (p : Doc → Bool)
    (h : t.docs = s.docs.filter p) (hw : ActiveOK s) : ActiveOK t := by
  unfold ActiveOK at *
  rw [h]
  exact hw.filter p

theorem activeOK_docs_map {t s : Store} {f : Doc → Doc}
    (h : t.docs = s.docs.map f)
    (huid : ∀ d, (f d).user_id = d.user_id)
    (hact : ∀ d, (f d).status = Status.active → d.status = Status.active)
    (hw : ActiveOK s) : ActiveOK t := by
  unfold ActiveOK at *
  rw [h, List.pairwise_map]
  refine hw.imp ?_
  intro a b hab hcon
  exact hab ⟨by rw [← huid a, ← huid b]; exact hcon.1, hact a hcon.2.1, hact b hcon.2.2⟩

theorem activeOK_append {t s : Store} {nd : Doc}
    (h : t.docs = s.docs ++ [nd]) (hw : ActiveOK s)
    (hnew : ∀ d ∈ s.docs,
      ¬ (d.user_id = nd.user_id ∧ d.status = Status.active ∧ nd.status = Status.active)) :
    ActiveOK t := by
  unfold ActiveOK at *
  rw [h, List.pairwise_append]
  refine ⟨hw, List.pairwise_singleton _ _, ?_⟩
  intro d hd x hx
  rw [List.mem_singleton.mp hx]
  exact hnew d hd

theorem closeUpd_user_id (i now : Nat) (d : Doc) : (closeUpd i now d).user_id = d.user_id := by
  unfold closeUpd
  split <;> rfl

theorem closeUpd_active (i now : Nat) (d : Doc) :
    (closeUpd i now d).status = Status.active → d.status = Status.active := by
  unfold closeUpd
  split
  · intro h
    cases h
  · exact fun h => h

theorem generate_csv_fst_tables (t : Store) (i : Nat) :
    (generate_csv t i).1.docs = t.docs ∧ (generate_csv t i).1.users = t.users ∧
    (generate_csv t i).1.scans = t.scans := by
  unfold generate_csv
  cases findDoc t i with
  | none => exact ⟨rfl, rfl, rfl⟩
  | some d =>
    dsimp only
    cases findUser t d.user_id with
    | none => exact ⟨rfl, rfl, rfl⟩
    | some u => exact ⟨rfl, rfl, rfl⟩

theorem delete_active_docs {s : Store} {uid : Nat} {a : Doc}
    (hmem : a ∈ s.docs) (hauid : a.user_id = uid) (huser : (findUser s uid).isSome) :
    (delete_document s a.id uid).1.docs = s.docs.filter (fun e => e.id != a.id) := by
  unfold delete_document
  cases hf : s.docs.find? (fun e => e.id == a.id && e.user_id == uid) with
  | none =>
    exact absurd (by simp [hauid]) (List.find?_eq_none.mp hf a hmem)
  | some e =>
    have hep := List.find?_some hf
    simp only [Bool.and_eq_true, beq_iff_eq] at hep
    dsimp only
    obtain ⟨u, hu⟩ := Option.isSome_iff_exists.mp huser
    rw [hep.2, hu]

theorem deleteDoc_docs (s : Store) (docId uid : Nat) :
    (delete_document s docId uid).1.docs = s.docs ∨
    (delete_document s docId uid).1.docs = s.docs.filter (fun e => e.id != docId) := by
  unfold delete_document
  cases s.docs.find? (fun e => e.id == docId && e.user_id == uid) with
  | none => exact Or.inl rfl
  | some d =>
    dsimp only
    cases findUser s d.user_id with
    | none => exact Or.inl rfl
    | some u => exact Or.inr rfl

theorem adminDeleteDoc_docs (s : Store) (docId : Nat) :
    (admin_delete_document s docId).1.docs = s.docs ∨
    (admin_delete_document s docId).1.docs = s.docs.filter (fun e => e.id != docId) := by
  unfold admin_delete_document
  cases s.docs.find? (fun e => e.id == docId) with
  | none => exact Or.inl rfl
  | some d =>
    dsimp only
    cases findUser s d.user_id with
    | none => exact Or.inl rfl
    | some u => exact Or.inr rfl

theorem deleteUserSys_fst (s : Store) (uid : Nat) :
    (delete_user_from_system s uid).1 = s ∨
    (delete_user_from_system s uid).1.docs = s.docs.filter (fun d => d.user_id != uid) := by
  unfold delete_user_from_system
  cases findUser s uid with
  | none => exact Or.inl rfl
  | some u => exact Or.inr rfl

theorem adminDeleteUser_fst (s : Store) (rid tid : Nat) :
    (admin_delete_user s rid tid).1 = s ∨
    (admin_delete_user s rid tid).1 = (delete_user_from_system s tid).1 := by
  unfold admin_delete_user
  cases findUser s rid with
  | none => exact Or.inl rfl
  | some u =>
    dsimp only
    split
    · split
      · exact Or.inl rfl
      · cases findUser s tid with
        | some t =>
          dsimp only
          split
          · exact Or.inl rfl
          · cases hdel : delete_user_from_system s tid with
            | mk s1 ok =>
              cases ok
              · exact Or.inr rfl
              · exact Or.inr rfl
        | none =>
          dsimp only
          cases hdel : delete_user_from_system s tid with
          | mk s1 ok =>
            cases ok
            · exact Or.inr rfl
            · exact Or.inr rfl
    · exact Or.inl rfl

theorem get_or_create_docs (s : Store) (creds : List String) (name : String) (now : Nat) :
    (get_or_create_user s creds name now).1.docs = s.docs := by
  unfold get_or_create_user
  cases s.users.find? (fun u => u.name == name) with
  | some u => rfl
  | none =>
    dsimp only
    split <;> rfl

theorem activeOK_step_open {s : Store} {uid : Nat} {dt : DocType} {c : String} {tc tn : Nat}
    (hw : ActiveOK s) (huser : (findUser s uid).isSome) :
    ActiveOK (create_new_document s uid dt c tc tn) := by
  cases ha : get_active_document s uid with
  | none =>
    unfold create_new_document
    rw [ha]
    apply activeOK_append rfl hw
    intro d hd hcon
    have hnone := get_active_eq_none_iff.mp ha
    have : d ∈ activeDocsOf s uid :=
      List.mem_filter.mpr ⟨hd, by simp [hcon.1, hcon.2.1]⟩
    rw [hnone] at this
    cases this
  | some a =>
    have hmem : a ∈ s.docs := (mem_activeDocsOf.mp (get_active_mem ha)).1
    have hauid : a.user_id = uid := (mem_activeDocsOf.mp (get_active_mem ha)).2.1
    unfold create_new_document
    rw [ha]
    dsimp only
    by_cases hdt : (a.doc_type == dt) = true
    · rw [if_pos hdt]
      exact hw
    · rw [if_neg hdt]
      by_cases hemp : ((docScans s a.id).isEmpty) = true
      · rw [if_pos hemp]
        have hdocs := delete_active_docs hmem hauid huser
        have hwDel : ActiveOK (delete_document s a.id uid).1 :=
          activeOK_docs_filter _ hdocs hw
        have hshape : (create_document (delete_document s a.id uid).1 uid dt
              (pyStrip c) tn).1.docs
            = (delete_document s a.id uid).1.docs
              ++ [newDocRow (delete_document s a.id uid).1 uid dt (pyStrip c) tn] := rfl
        apply activeOK_append hshape hwDel
        intro d hd hcon
        have h1 : d.user_id = uid := hcon.1
        rw [hdocs] at hd
        have : d ∈ (s.docs.filter (fun e => e.id != a.id)).filter
            (fun d => d.user_id == uid && d.status == Status.active) :=
          List.mem_filter.mpr ⟨hd, by simp [h1, hcon.2.1]⟩
        rw [no_active_after_del hw ha] at this
        cases this
      · rw [if_neg hemp]
        have hwC : ActiveOK (close_document s a.id tc) :=
          activeOK_docs_map rfl (closeUpd_user_id a.id tc) (closeUpd_active a.id tc) hw
        cases hg : generate_csv (close_document s a.id tc) a.id with
        | mk s2 r =>
          have hs2docs : s2.docs = s.docs.map (closeUpd a.id tc) := by
            have := (generate_csv_fst_tables (close_document s a.id tc) a.id).1
            rw [hg] at this
            exact this
          have hwS2 : ActiveOK s2 :=
            activeOK_docs_map hs2docs (closeUpd_user_id a.id tc) (closeUpd_active a.id tc) hw
          cases r with
          | error e => exact hwS2
          | ok fn =>
            apply activeOK_append rfl hwS2
            intro d hd hcon
            rw [hs2docs] at hd
            have : d ∈ (s.docs.map (closeUpd a.id tc)).filter
                (fun d => d.user_id == uid && d.status == Status.active) :=
              List.mem_filter.mpr ⟨hd, by simp [hcon.1, hcon.2.1]⟩
            rw [no_active_after_close hw ha] at this
            cases this

theorem step_preserves_activeOK {s t : Store} (h : Step s t) (hw : ActiveOK s) :
    ActiveOK t := by
  cases h with
  | login creds name now => exact activeOK_docs_cast (get_or_create_docs s creds name now) hw
  | openDoc uid dt comment tClose tNew huser => exact activeOK_step_open hw huser
  | closeDoc uid now =>
    unfold close_active_document
    cases ha : get_active_document s uid with
    | none => exact hw
    | some a =>
      dsimp only
      split
      · exact hw
      · have hwC : ActiveOK (close_document s a.id now) :=
          activeOK_docs_map rfl (closeUpd_user_id a.id now) (closeUpd_active a.id now) hw
        exact activeOK_docs_cast
          (generate_csv_fst_tables (close_document s a.id now) a.id).1 hwC
  | scanStep uid raw now =>
    obtain ⟨l, -, hdocs⟩ := add_new_barcode_fst_scans s uid raw now
    exact activeOK_docs_cast hdocs hw
  | deleteScan scanId => exact activeOK_docs_cast rfl hw
  | deleteDoc docId uid =>
    rcases deleteDoc_docs s docId uid with h | h
    · exact activeOK_docs_cast h hw
    · exact activeOK_docs_filter _ h hw
  | adminDeleteDoc docId =>
    rcases adminDeleteDoc_docs s docId with h | h
    · exact activeOK_docs_cast h hw
    · exact activeOK_docs_filter _ h hw
  | editComment docId uid c =>
    apply activeOK_docs_map rfl ?_ ?_ hw
    · intro d
      dsimp only
      split <;> rfl
    · intro d
      dsimp only
      split <;> exact fun h => h
  | adminEditComment docId c =>
    apply activeOK_docs_map rfl ?_ ?_ hw
    · intro d
      dsimp only
      split <;> rfl
    · intro d
      dsimp only
      split <;> exact fun h => h
  | regen docId =>
    exact activeOK_docs_cast (generate_csv_fst_tables s docId).1 hw
  | addUser name now => exact activeOK_docs_cast rfl hw
  | deleteUser rid tid =>
    rcases adminDeleteUser_fst s rid tid with h | h
    · rw [h]
      exact hw
    · rw [h]
      rcases deleteUserSys_fst s tid with h2 | h2
      · rw [h2]
        exact hw
      · exact activeOK_docs_filter _ h2 hw

theorem reachable_activeOK {s : Store} (h : Reachable s) : ActiveOK s := by
  unfold Reachable at h
  induction h with
  | refl =>
    unfold ActiveOK
    exact List.Pairwise.nil
  | tail hab hbc ih => exact step_preserves_activeOK hbc ih

/-- C1.  In every state reachable from the empty store by any sequence of core
operations (login/user management, openDocument — invoked, per §6, with an
authenticated existing userId — closeDocument, scan, scan deletion, document
deletion and comment update with their admin variants, and export
regeneration), every user has zero or one documents with `status = active`. -/
theorem one_active_document_invariant (s : Store) (h : Reachable s) (uid : Nat) :
    (activeDocsOf s uid).length = 0 ∨ (activeDocsOf s uid).length = 1 := by
  have := activeDocsOf_length_le_one (reachable_activeOK h) uid
  omega

/-- Witness for C1 on a concrete two-step run: create the user Alice, then
open a Receipt document for her. -/
theorem one_active_document_invariant_witness :
    (activeDocsOf (create_new_document (add_user_to_system Store.empty "Alice" 0).1 1
        DocType.receipt "" 1 2) 1).length = 0 ∨
    (activeDocsOf (create_new_document (add_user_to_system Store.empty "Alice" 0).1 1
        DocType.receipt "" 1 2) 1).length = 1 :=
  one_active_document_invariant _
    (Relation.ReflTransGen.tail
      (Relation.ReflTransGen.tail Relation.ReflTransGen.refl
        (Step.addUser Store.empty "Alice" 0))
      (Step.openDoc (add_user_to_system Store.empty "Alice" 0).1 1
        DocType.receipt "" 1 2 (by decide))) 1

/-! ## The grouped display view -/

theorem annotateRows_length (cnt : String → Nat) :
    ∀ (l : List Scan) (seen : String → Nat), (annotateRows cnt l seen).length = l.length := by
  intro l
  induction l with
  | nil => intro seen; rfl
  | cons r rest ih =>
    intro seen
    simp only [annotateRows, List.length_cons]
    rw [ih]

/-- The full row-by-row description of the annotation loop: row `i` copies
scan `i` of the input, carries the group's count, and its sequence number is
the running counter for its value plus the number of equal-valued rows in the
first `i + 1` input rows. -/
theorem annotateRows_spec (cnt : String → Nat) :
    ∀ (l : List Scan) (seen : String → Nat) (i : Nat) (g : GroupedRow),
      (annotateRows cnt l seen)[i]? = some g →
      ∃ b, l[i]? = some b ∧ g.id = b.id ∧ g.barcode = b.barcode ∧
        g.created_at = b.created_at ∧ g.total_count = cnt b.barcode ∧
        g.is_duplicate = decide (1 < cnt b.barcode) ∧
        g.color_index = (if 1 < cnt b.barcode then (g.sequence_number - 1) % 4 else 0) ∧
        g.sequence_number = seen b.barcode +
          ((l.take (i + 1)).filter (fun x => x.barcode == b.barcode)).length := by
  intro l
  induction l with
  | nil =>
    intro seen i g h
    simp [annotateRows] at h
  | cons r rest ih =>
    intro seen i g h
    cases i with
    | zero =>
      simp only [annotateRows, List.getElem?_cons_zero, Option.some.injEq] at h
      subst h
      exact ⟨r, by simp, rfl, rfl, rfl, rfl, rfl, rfl, by simp⟩
    | succ n =>
      simp only [annotateRows, List.getElem?_cons_succ] at h
      obtain ⟨b, hb, h1, h2, h3, h4, h5, h6, h7⟩ :=
        ih (fun v => if v == r.barcode then seen r.barcode + 1 else seen v) n g h
      refine ⟨b, by simpa using hb, h1, h2, h3, h4, h5, h6, ?_⟩
      rw [h7, List.take_succ_cons, List.filter_cons]
      by_cases hrb : b.barcode = r.barcode
      · rw [if_pos (by simpa using hrb), hrb]
        simp [Nat.add_comm, Nat.add_assoc, Nat.add_left_comm]
      · have hne : ¬ (r.barcode == b.barcode) = true := by
          simpa using fun hc => hrb hc.symm
        rw [if_neg (by simpa using hrb), if_neg hne]

/-- C4.  `listGrouped` returns exactly the document's scans (a permutation of
the scan table restricted to the document), ordered by barcode value
ascending then `created_at` descending; each row carries the total number of
same-valued scans in the document, its 1-based rank among same-valued rows of
the sorted order, `is_duplicate` exactly when that count exceeds one, and
`color_index = (sequence_number - 1) % 4` for duplicates and `0` otherwise.
On the document holding A@1, B@2, A@3 this yields A@3, A@1, B@2 with counts
2, 2, 1, sequence numbers 1, 2, 1, and only the A rows marked duplicate. -/
theorem grouped_view_spec (s : Store) (docId : Nat) :
    (sortedScans s docId).Perm (docScans s docId)
    ∧ List.Sorted scanOrder (sortedScans s docId)
    ∧ (get_document_barcodes_sorted s docId).length = (sortedScans s docId).length
    ∧ (∀ i g, (get_document_barcodes_sorted s docId)[i]? = some g →
        ∃ b, (sortedScans s docId)[i]? = some b ∧
          g.id = b.id ∧ g.barcode = b.barcode ∧ g.created_at = b.created_at ∧
          g.total_count = barcodeCount s docId g.barcode ∧
          g.is_duplicate = decide (1 < g.total_count) ∧
          g.color_index = (if 1 < g.total_count then (g.sequence_number - 1) % 4 else 0) ∧
          g.sequence_number =
            (((sortedScans s docId).take (i + 1)).filter
              (fun x => x.barcode == g.barcode)).length)
    ∧ get_document_barcodes_sorted exStore 1 =
        [⟨3, "A", 3, true, 2, 1, 0⟩, ⟨1, "A", 1, true, 2, 2, 1⟩,
         ⟨2, "B", 2, false, 1, 1, 0⟩] := by
  refine ⟨List.perm_insertionSort scanOrder (docScans s docId),
    List.sorted_insertionSort scanOrder (docScans s docId),
    annotateRows_length (barcodeCount s docId) (sortedScans s docId) (fun _ => 0),
    ?_, by decide⟩
  intro i g h
  obtain ⟨b, hb, h1, h2, h3, h4, h5, h6, h7⟩ :=
    annotateRows_spec (barcodeCount s docId) (sortedScans s docId) (fun _ => 0) i g h
  refine ⟨b, hb, h1, h2, h3, by rw [h4, h2], ?_, ?_, by rw [h7, h2]; simp⟩
  · rw [h5, h4]
  · rw [h6, h4]

/-- Witness for C4 at the example document, extracting the first row's
description. -/
theorem grouped_view_spec_witness :
    ∃ b, (sortedScans exStore 1)[0]? = some b ∧
      (⟨3, "A", 3, true, 2, 1, 0⟩ : GroupedRow).id = b.id ∧
      (⟨3, "A", 3, true, 2, 1, 0⟩ : GroupedRow).barcode = b.barcode ∧
      (⟨3, "A", 3, true, 2, 1, 0⟩ : GroupedRow).created_at = b.created_at ∧
      (⟨3, "A", 3, true, 2, 1, 0⟩ : GroupedRow).total_count
        = barcodeCount exStore 1 (⟨3, "A", 3, true, 2, 1, 0⟩ : GroupedRow).barcode ∧
      (⟨3, "A", 3, true, 2, 1, 0⟩ : GroupedRow).is_duplicate
        = decide (1 < (⟨3, "A", 3, true, 2, 1, 0⟩ : GroupedRow).total_count) ∧
      (⟨3, "A", 3, true, 2, 1, 0⟩ : GroupedRow).color_index
        = (if 1 < (⟨3, "A", 3, true, 2, 1, 0⟩ : GroupedRow).total_count
            then ((⟨3, "A", 3, true, 2, 1, 0⟩ : GroupedRow).sequence_number - 1) % 4 else 0) ∧
      (⟨3, "A", 3, true, 2, 1, 0⟩ : GroupedRow).sequence_number =
        (((sortedScans exStore 1).take 1).filter
          (fun x => x.barcode == (⟨3, "A", 3, true, 2, 1, 0⟩ : GroupedRow).barcode)).length :=
  (grouped_view_spec exStore 1).2.2.2.1 0 ⟨3, "A", 3, true, 2, 1, 0⟩ (by decide)

end MobileInv
